import Mathlib

/-!
Verification of the papers-identifier batch extractor.

The development shallowly embeds the four source modules:
`gemini_client.py` (the rotating-credential LLM wrapper and its JSON
response parser), `main.py` (unit discovery and the per-folder loop),
`excel_writer.py` (the result ledger) and `pdf_processor.py` (first-page
text extraction).  External effects (the network call, model re-binding)
are passed in as explicit parameters.
-/

set_option maxRecDepth 4000

/-! ## A model of Python JSON values (the result of `json.loads`) -/

/-- A JSON value as decoded by Python's `json.loads`.  Integer literals
become Python ints (`num`); non-integer numeric literals are kept as their
source text (`numF`, an approximation of the Python float that ignores
float re-formatting — no claim touches floats). -/
inductive JsonVal where
  | null
  | bool (b : Bool)
  | num (n : Int)
  | numF (raw : String)
  | str (s : String)
  | arr (elems : List JsonVal)
  | obj (fields : List (String × JsonVal))

/-- The whitespace characters `json.loads` skips between tokens. -/
def json_ws (c : Char) : Bool :=
  c = ' ' || c = '\t' || c = '\n' || c = '\r'

/-- Drop leading JSON whitespace. -/
def skip_ws : List Char → List Char
  | [] => []
  | c :: cs => if json_ws c then skip_ws cs else c :: cs

/-- Value of a hex digit, if the character is one. -/
def hex_val (c : Char) : Option Nat :=
  if c.isDigit then some (c.toNat - 48)
  else if 'a' ≤ c && c ≤ 'f' then some (c.toNat - 87)
  else if 'A' ≤ c && c ≤ 'F' then some (c.toNat - 55)
  else none

/-- Body of a JSON string literal (the opening quote already consumed):
returns the decoded string and the rest of the input.  Handles the JSON
escapes; a `\uXXXX` escape becomes the code point directly (surrogate
pairing is not modelled — no claim involves it). -/
def parse_string_body : Nat → List Char → List Char → Option (String × List Char)
  | 0, _, _ => none
  | _ + 1, _, [] => none
  | fuel + 1, acc, c :: cs =>
    if c = '"' then some (String.mk acc.reverse, cs)
    else if c = '\\' then
      match cs with
      | [] => none
      | e :: cs2 =>
        if e = '"' then parse_string_body fuel ('"' :: acc) cs2
        else if e = '\\' then parse_string_body fuel ('\\' :: acc) cs2
        else if e = '/' then parse_string_body fuel ('/' :: acc) cs2
        else if e = 'b' then parse_string_body fuel ('\x08' :: acc) cs2
        else if e = 'f' then parse_string_body fuel ('\x0c' :: acc) cs2
        else if e = 'n' then parse_string_body fuel ('\n' :: acc) cs2
        else if e = 'r' then parse_string_body fuel ('\r' :: acc) cs2
        else if e = 't' then parse_string_body fuel ('\t' :: acc) cs2
        else if e = 'u' then
          match cs2 with
          | h1 :: h2 :: h3 :: h4 :: cs3 =>
            match hex_val h1, hex_val h2, hex_val h3, hex_val h4 with
            | some v1, some v2, some v3, some v4 =>
              parse_string_body fuel
                (Char.ofNat (((v1 * 16 + v2) * 16 + v3) * 16 + v4) :: acc) cs3
            | _, _, _, _ => none
          | _ => none
        else none
    else parse_string_body fuel (c :: acc) cs

/-- Numeric value of a list of decimal digit characters. -/
def digits_val (ds : List Char) : Nat :=
  ds.foldl (fun acc c => acc * 10 + (c.toNat - 48)) 0

/-- A JSON number literal.  Grammar: optional minus, integer part
(`0` or nonzero-led digits), optional fraction, optional exponent.
A pure integer literal becomes `JsonVal.num`; otherwise the consumed
text is kept as `JsonVal.numF`. -/
def parse_number (cs : List Char) : Option (JsonVal × List Char) :=
  let (sign, cs1) :=
    match cs with
    | '-' :: rest => (([('-' : Char)] : List Char), rest)
    | _ => (([] : List Char), cs)
  match cs1 with
  | [] => none
  | c :: rest =>
    if c = '0' then
      parse_number_tail sign ['0'] rest
    else if c.isDigit then
      parse_number_tail sign (c :: rest.takeWhile Char.isDigit)
        (rest.dropWhile Char.isDigit)
    else none
where
  /-- Optional fraction and exponent after the integer part. -/
  parse_number_tail (sign intPart : List Char) (cs : List Char) :
      Option (JsonVal × List Char) :=
    let (fracPart, cs2) :=
      match cs with
      | '.' :: rest =>
        let fd := rest.takeWhile Char.isDigit
        if fd.isEmpty then (none, cs) else (some fd, rest.dropWhile Char.isDigit)
      | _ => ((none : Option (List Char)), cs)
    if fracPart.isNone ∧ cs2 = cs ∧ cs ≠ [] ∧ cs.head? = some '.' then
      none
    else
      let (expPart, cs3) :=
        match cs2 with
        | e :: rest =>
          if e = 'e' ∨ e = 'E' then
            let (es, rest2) :=
              match rest with
              | s :: r2 => if s = '+' ∨ s = '-' then ([e, s], r2) else ([e], rest)
              | [] => ([e], rest)
            let ed := rest2.takeWhile Char.isDigit
            if ed.isEmpty then (none, cs2)
            else (some (es ++ ed), rest2.dropWhile Char.isDigit)
          else ((none : Option (List Char)), cs2)
        | [] => (none, cs2)
      match fracPart, expPart with
      | none, none =>
        let n : Int := Int.ofNat (digits_val intPart)
        some (JsonVal.num (if sign.isEmpty then n else -n), cs3)
      | _, _ =>
        let raw := sign ++ intPart ++
          (match fracPart with
           | some fd => '.' :: fd
           | none => []) ++ expPart.getD []
        some (JsonVal.numF (String.mk raw), cs3)

/-- Expect the exact characters `lit` at the head of the input. -/
def expect_lit : List Char → List Char → Option (List Char)
  | [], cs => some cs
  | _ :: _, [] => none
  | l :: ls, c :: cs => if c = l then expect_lit ls cs else none

mutual

/-- One JSON value, dispatching on the first character
(as `json.loads` does). -/
def parse_value : Nat → List Char → Option (JsonVal × List Char)
  | 0, _ => none
  | _ + 1, [] => none
  | fuel + 1, c :: cs =>
    if c = '{' then parse_obj fuel cs
    else if c = '[' then parse_arr fuel cs
    else if c = '"' then
      match parse_string_body (fuel + 1) [] cs with
      | some (s, rest) => some (JsonVal.str s, rest)
      | none => none
    else if c = 't' then (expect_lit ['r', 'u', 'e'] cs).map (JsonVal.bool true, ·)
    else if c = 'f' then (expect_lit ['a', 'l', 's', 'e'] cs).map (JsonVal.bool false, ·)
    else if c = 'n' then (expect_lit ['u', 'l', 'l'] cs).map (JsonVal.null, ·)
    else if c = '-' || c.isDigit then parse_number (c :: cs)
    else none

/-- Object body, the opening brace already consumed. -/
def parse_obj (fuel : Nat) (cs : List Char) : Option (JsonVal × List Char) :=
  match fuel with
  | 0 => none
  | fuel + 1 =>
    match skip_ws cs with
    | '}' :: rest => some (JsonVal.obj [], rest)
    | other => parse_members fuel other []

/-- One or more `"key": value` members separated by commas, ending at the
closing brace.  Members accumulate in source order (so a later duplicate
key sits later in the list, matching Python's last-wins dict build). -/
def parse_members (fuel : Nat) (cs : List Char)
    (acc : List (String × JsonVal)) : Option (JsonVal × List Char) :=
  match fuel with
  | 0 => none
  | fuel + 1 =>
    match cs with
    | '"' :: rest =>
      match parse_string_body (fuel + 1) [] rest with
      | some (key, cs2) =>
        match skip_ws cs2 with
        | ':' :: cs3 =>
          match parse_value fuel (skip_ws cs3) with
          | some (v, cs4) =>
            match skip_ws cs4 with
            | ',' :: cs5 => parse_members fuel (skip_ws cs5) (acc ++ [(key, v)])
            | '}' :: cs5 => some (JsonVal.obj (acc ++ [(key, v)]), cs5)
            | _ => none
          | none => none
        | _ => none
      | none => none
    | _ => none

/-- Array body, the opening bracket already consumed. -/
def parse_arr (fuel : Nat) (cs : List Char) : Option (JsonVal × List Char) :=
  match fuel with
  | 0 => none
  | fuel + 1 =>
    match skip_ws cs with
    | ']' :: rest => some (JsonVal.arr [], rest)
    | other => parse_elems fuel other []

/-- One or more array elements separated by commas, ending at the
closing bracket. -/
def parse_elems (fuel : Nat) (cs : List Char)
    (acc : List JsonVal) : Option (JsonVal × List Char) :=
  match fuel with
  | 0 => none
  | fuel + 1 =>
    match parse_value fuel cs with
    | some (v, cs2) =>
      match skip_ws cs2 with
      | ',' :: cs3 => parse_elems fuel (skip_ws cs3) (acc ++ [v])
      | ']' :: cs3 => some (JsonVal.arr (acc ++ [v]), cs3)
      | _ => none
    | none => none

end

/-- `json.loads`: optional surrounding whitespace around exactly one JSON
value; anything left over ("Extra data") is a parse failure. -/
def json_parse (s : String) : Option JsonVal :=
  match parse_value (s.data.length + 1) (skip_ws s.data) with
  | some (v, rest) => if skip_ws rest = [] then some v else none
  | none => none

/-! ## Python `str()` coercion -/

/-- A single-quote character, used by Python `repr` of strings. -/
def squote : String := String.singleton (Char.ofNat 39)

mutual

/-- Python `repr` of a decoded JSON value (approximation: quoting inside
nested strings is not re-escaped — no claim nests containers). -/
def py_repr : JsonVal → String
  | JsonVal.null => "None"
  | JsonVal.bool true => "True"
  | JsonVal.bool false => "False"
  | JsonVal.num n => toString n
  | JsonVal.numF raw => raw
  | JsonVal.str s => squote ++ s ++ squote
  | JsonVal.arr xs => "[" ++ String.intercalate ", " (py_repr_list xs) ++ "]"
  | JsonVal.obj fs => "\x7b" ++ String.intercalate ", " (py_repr_fields fs) ++ "\x7d"

/-- `repr` of each element of a list. -/
def py_repr_list : List JsonVal → List String
  | [] => []
  | x :: xs => py_repr x :: py_repr_list xs

/-- `repr` of each `key: value` pair of a dict. -/
def py_repr_fields : List (String × JsonVal) → List String
  | [] => []
  | (k, v) :: fs => (squote ++ k ++ squote ++ ": " ++ py_repr v) :: py_repr_fields fs

end

/-- Python `str()` applied to a value decoded by `json.loads`:
a str is returned as-is, everything else via `repr`
(in particular `str(None) = "None"` and `str(2020) = "2020"`). -/
def py_str : JsonVal → String
  | JsonVal.null => "None"
  | JsonVal.bool true => "True"
  | JsonVal.bool false => "False"
  | JsonVal.num n => toString n
  | JsonVal.numF raw => raw
  | JsonVal.str s => s
  | v => py_repr v

/-- Python `str.strip()`: drop whitespace from both ends. -/
def py_strip (s : String) : String :=
  String.mk (((s.data.dropWhile Char.isWhitespace).reverse.dropWhile
    Char.isWhitespace).reverse)

/-! ## `GeminiClient._parse_gemini_response` -/

/-- The four normalized metadata fields returned by the client. -/
structure PaperInfo where
  author : String
  year : String
  title : String
  abstract : String
deriving DecidableEq

/-- `GeminiClient._create_empty_response`. -/
def create_empty_response : PaperInfo :=
  { author := "not found", year := "not found",
    title := "not found", abstract := "not found" }

/-- Python `dict.get(k, default)` on the dict built from a JSON object's
members: the last occurrence of a duplicated key wins. -/
def dict_get (fields : List (String × JsonVal)) (k : String) (d : JsonVal) : JsonVal :=
  (fields.reverse.lookup k).getD d

/-- The dict-branch of `_parse_gemini_response`: each field is
`str(data.get(key, 'not found')).strip()`. -/
def parse_fields (fields : List (String × JsonVal)) : PaperInfo :=
  { author := py_strip (py_str (dict_get fields "author" (JsonVal.str "not found")))
    year := py_strip (py_str (dict_get fields "year" (JsonVal.str "not found")))
    title := py_strip (py_str (dict_get fields "title" (JsonVal.str "not found")))
    abstract := py_strip (py_str (dict_get fields "abstract" (JsonVal.str "not found"))) }

/-- `GeminiClient._parse_gemini_response`: `json.loads` the body; on a
decode error return the empty response; on a decoded non-dict the
`.get` attribute error is caught by the broad handler, likewise
yielding the empty response. -/
def parse_gemini_response (response_text : String) : PaperInfo :=
  match json_parse response_text with
  | some (JsonVal.obj fields) => parse_fields fields
  | some _ => create_empty_response
  | none => create_empty_response

/-! ## `GeminiClient` rotation state -/

/-- The mutable state of `GeminiClient`: the loaded key pool, the
rotation bookkeeping, and the model binding.  `model = some i` means the
underlying `GenerativeModel` is configured with the credential at index
`i`; `none` means `self.model is None`. -/
structure GeminiClient where
  api_keys : List String
  call_counter : Nat
  current_key_index : Nat
  model : Option Nat
deriving DecidableEq

/-- `self.max_calls_per_key = 3`. -/
def max_calls_per_key : Nat := 3

/-- `GeminiClient._initialize_model`, with the provider's success as the
explicit parameter `ok`: fails when the key pool is empty, otherwise
binds the model to the credential at `current_key_index` when the
provider accepts it (the prompt config is loaded by construction — the
constructor raised otherwise). -/
def initialize_model (c : GeminiClient) (ok : Bool) : Option Nat :=
  if c.api_keys.isEmpty then none
  else if ok then some c.current_key_index else none

/-- `GeminiClient.reset_key_rotation`: index and counter back to 0, then
re-initialize the model with the first credential. -/
def reset_key_rotation (c : GeminiClient) (ok : Bool) : GeminiClient :=
  let c1 : GeminiClient := { c with current_key_index := 0, call_counter := 0 }
  { c1 with model := initialize_model c1 ok }

/-- What the one `generate_content` request of `extract_paper_info` does,
as seen by the caller: it raised, it was blocked
(`prompt_feedback.block_reason` set), or it returned a body. -/
inductive ApiOutcome where
  | apiError
  | blocked
  | success (body : String)

/-- Whether the outcome is a successful (unblocked) response. -/
def ApiOutcome.isSuccess : ApiOutcome → Bool
  | ApiOutcome.success _ => true
  | _ => false

/-- The rotation check at the top of `extract_paper_info`: at or above
the budget, advance the index modulo the pool size, zero the counter and
re-initialize the model with the new credential. -/
def rotate_if_needed (c : GeminiClient) (rebindOk : Bool) : GeminiClient :=
  if max_calls_per_key ≤ c.call_counter then
    let c1 : GeminiClient :=
      { c with current_key_index := (c.current_key_index + 1) % c.api_keys.length,
               call_counter := 0 }
    { c1 with model := initialize_model c1 rebindOk }
  else c

/-- `GeminiClient.extract_paper_info`.  Returns the updated client, the
record, and how many `generate_content` requests were issued (0 or 1).
After the rotation check the code returns the empty response when the
model is unbound (either the dedicated check inside the rotation branch
or the general one — they collapse to a single test), then when the text
is empty or whitespace-only; otherwise it issues the one request (the
user prompt carries `text[:15000]`, which only shapes the request, not
the control flow modelled here), returns the empty response on a raised
error or a blocked prompt, and on success increments the counter and
parses the body. -/
def extract_paper_info (c : GeminiClient) (text : String) (rebindOk : Bool)
    (outcome : ApiOutcome) : GeminiClient × PaperInfo × Nat :=
  let c1 := rotate_if_needed c rebindOk
  if c1.model.isNone then (c1, create_empty_response, 0)
  else if py_strip text = "" then (c1, create_empty_response, 0)
  else
    match outcome with
    | ApiOutcome.apiError => (c1, create_empty_response, 1)
    | ApiOutcome.blocked => (c1, create_empty_response, 1)
    | ApiOutcome.success body =>
      ({ c1 with call_counter := c1.call_counter + 1 }, parse_gemini_response body, 1)

/-- Key indices used by `n` consecutive successful, unblocked calls on
non-blank text: the index recorded for each call is the one in force
when its request is issued (i.e. after the rotation check). -/
def run_success_calls : GeminiClient → Nat → List Nat
  | _, 0 => []
  | c, n + 1 =>
    let r := extract_paper_info c "x" true (ApiOutcome.success "\x7b\x7d")
    r.1.current_key_index :: run_success_calls r.1 n

/-- A freshly reset client over a pool of two credentials. -/
def client_two : GeminiClient :=
  { api_keys := ["key_a", "key_b"], call_counter := 0,
    current_key_index := 0, model := some 0 }

/-- A client mid-way through a unit, with a dead model binding. -/
def client_dirty : GeminiClient :=
  { api_keys := ["key_a", "key_b"], call_counter := 2,
    current_key_index := 1, model := none }

/-! ## `ExcelWriter` (the result ledger) -/

/-- A ledger row: the dict produced by `add_row`, keyed by column name. -/
abbrev Row : Type := List (String × String)

/-- `self.columns` in `ExcelWriter.__init__`. -/
def excel_columns : List String :=
  ["item", "file_name", "author", "year", "title", "abstract"]

/-- The comprehension in `ExcelWriter.add_row`:
`{col: row_data.get(col, 'not found') for col in self.columns}`.
The incoming dict is modelled as its lookup function. -/
def validated_row (row_data : String → Option String) : Row :=
  excel_columns.map fun col => (col, (row_data col).getD "not found")

/-- `ExcelWriter.add_row`: append the validated row to `self.data`. -/
def add_row (rows : List Row) (row_data : String → Option String) : List Row :=
  rows ++ [validated_row row_data]

/-! ## `PDFProcessor` -/

/-- A PDF document as the text extractor sees it: unreadable (any I/O or
parse failure, including a missing file), or a readable document given by
the extractable text of each page (empty string for a page with no text
layer). -/
inductive PdfDoc where
  | unreadable
  | doc (pages : List String)

/-- `PDFProcessor.extract_first_page_text`: empty string on failure or on
a document with zero pages, else the first page's text. -/
def extract_first_page_text : PdfDoc → String
  | PdfDoc.unreadable => ""
  | PdfDoc.doc [] => ""
  | PdfDoc.doc (p :: _) => p

/-! ## `main.process_subfolder` -/

/-- What happens to one file of a unit.  `raises` models an exception
escaping into the per-file `try` (e.g. the text-extraction call itself
throwing; `extract_paper_info` converts its own failures to the empty
response internally and is modelled as non-throwing).  `ok` carries the
document content plus the external parameters of the one possible
client call. -/
inductive FileEvent where
  | raises
  | ok (content : PdfDoc) (rebindOk : Bool) (outcome : ApiOutcome)

/-- A PDF file of a processing unit: its name and its behaviour. -/
structure PdfFile where
  name : String
  event : FileEvent

/-- The six-key dict `main.process_subfolder` passes to `add_row`: the
four metadata fields of `info` plus `item` and `file_name`.  (The
all-sentinel `error_data` dict of the except-branch is this same mapping
at `info := create_empty_response`.) -/
def record_row_data (item : Nat) (file_name : String) (info : PaperInfo) :
    String → Option String :=
  fun col =>
    if col = "item" then some (toString item)
    else if col = "file_name" then some file_name
    else if col = "author" then some info.author
    else if col = "year" then some info.year
    else if col = "title" then some info.title
    else if col = "abstract" then some info.abstract
    else none

/-- The body of the per-file loop of `main.process_subfolder`: returns
the updated client, the dict handed to `add_row`, and the number of model
requests issued.  An exception yields the all-sentinel dict; empty
extracted text short-circuits without touching the client; otherwise the
client call runs. -/
def process_file (c : GeminiClient) (f : PdfFile) (item : Nat) :
    GeminiClient × (String → Option String) × Nat :=
  match f.event with
  | FileEvent.raises =>
    (c, record_row_data item f.name create_empty_response, 0)
  | FileEvent.ok content rebindOk outcome =>
    let text := extract_first_page_text content
    if text = "" then
      (c, record_row_data item f.name create_empty_response, 0)
    else
      let r := extract_paper_info c text rebindOk outcome
      (r.1, record_row_data item f.name r.2.1, r.2.2)

/-- `main.process_subfolder`: fold the per-file body over the unit's PDF
files (directory-enumeration order), appending one row per file via
`add_row` and advancing the item counter. -/
def process_subfolder (c : GeminiClient) (files : List PdfFile)
    (rows : List Row) (item : Nat) : GeminiClient × List Row × Nat :=
  match files with
  | [] => (c, rows, item)
  | f :: rest =>
    let r := process_file c f item
    process_subfolder r.1 rest (add_row rows r.2.1) (item + 1)

/-- The rows contributed by a list of files (ghost function used to state
that `process_subfolder` appends exactly one row per file). -/
def files_rows : GeminiClient → List PdfFile → Nat → List Row
  | _, [], _ => []
  | c, f :: rest, item =>
    validated_row (process_file c f item).2.1 ::
      files_rows (process_file c f item).1 rest (item + 1)

/-! ## `main.get_subfolders` -/

/-- One entry of `os.listdir(base_path)` together with its
`os.path.isdir` status. -/
structure DirEntry where
  name : String
  isDir : Bool

/-- Whether the second list starts with the first. -/
def list_is_prefix_of : List Char → List Char → Bool
  | [], _ => true
  | _ :: _, [] => false
  | p :: ps, c :: cs => p = c && list_is_prefix_of ps cs

/-- Python `s.startswith(pre)`. -/
def py_startswith (s pre : String) : Bool :=
  list_is_prefix_of pre.data s.data

/-- Split a character list at every occurrence of `sep`. -/
def split_on_char (sep : Char) : List Char → List (List Char)
  | [] => [[]]
  | c :: cs =>
    match split_on_char sep cs with
    | [] => [[]]
    | t :: ts => if c = sep then [] :: t :: ts else (c :: t) :: ts

/-- Python `s.split(sep)` for a one-character separator: adjacent
separators and separators at the ends produce empty pieces. -/
def py_split (s : String) (sep : Char) : List String :=
  (split_on_char sep s.data).map String.mk

/-- Python `int(s)` on a string: strip whitespace, optional sign, one or
more decimal digits ( `int()` also accepts underscores between digits,
which cannot occur here because the argument is a piece of a
`split('_')` ). -/
def py_int (s : String) : Option Int :=
  let t := (py_strip s).data
  let (neg, ds) :=
    match t with
    | '-' :: rest => (true, rest)
    | '+' :: rest => (false, rest)
    | _ => (false, t)
  if ds ≠ [] ∧ ds.all Char.isDigit then
    some (if neg then -(Int.ofNat (digits_val ds)) else Int.ofNat (digits_val ds))
  else none

/-- The filter of `main.get_subfolders`: a directory whose name starts
with `part_` and whose second `'_'`-separated token parses with `int()`
contributes the pair `(part_num, item)`; an `IndexError` or `ValueError`
skips the entry. -/
def subfolder_pairs (entries : List DirEntry) : List (Int × String) :=
  entries.filterMap fun e =>
    if e.isDir && py_startswith e.name "part_" then
      match (py_split e.name '_')[1]? with
      | some tok =>
        match py_int tok with
        | some n => some (n, e.name)
        | none => none
      | none => none
    else none

/-- The order `sorted` puts on the `(part_num, item)` pairs:
lexicographic on the tuple, i.e. by the number and then by the name. -/
def pair_le (a b : Int × String) : Prop :=
  a.1 < b.1 ∨ (a.1 = b.1 ∧ a.2 ≤ b.2)

instance : DecidableRel pair_le := fun a b => by
  unfold pair_le; infer_instance

instance : IsTotal (Int × String) pair_le where
  total a b := by
    rcases lt_trichotomy a.1 b.1 with h | h | h
    · exact Or.inl (Or.inl h)
    · rcases le_total a.2 b.2 with h2 | h2
      · exact Or.inl (Or.inr ⟨h, h2⟩)
      · exact Or.inr (Or.inr ⟨h.symm, h2⟩)
    · exact Or.inr (Or.inl h)

instance : IsTrans (Int × String) pair_le where
  trans a b c hab hbc := by
    rcases hab with h1 | ⟨h1, h1s⟩ <;> rcases hbc with h2 | ⟨h2, h2s⟩
    · exact Or.inl (h1.trans h2)
    · exact Or.inl (h2 ▸ h1)
    · exact Or.inl (h1 ▸ h2)
    · exact Or.inr ⟨h1.trans h2, h1s.trans h2s⟩

/-- `main.get_subfolders`: the matching entries sorted by
`(part_num, item)`, keeping only the names. -/
def get_subfolders (entries : List DirEntry) : List String :=
  (List.insertionSort pair_le (subfolder_pairs entries)).map Prod.snd

/-- Follows the spec's words, for comparison with `get_subfolders`: a
name that matches the pattern `part_<integer>`, i.e. is exactly `part_`
followed by an integer numeral. -/
def spec_part_integer_name (name : String) : Bool :=
  py_startswith name "part_" &&
    (let rest := (name.data.drop 5)
     let ds := match rest with
       | '-' :: r => r
       | _ => rest
     !ds.isEmpty && ds.all Char.isDigit)

/-! ## Helper lemmas about the client -/

/-- Below the budget the rotation check is a no-op. -/
lemma rotate_if_needed_lt (c : GeminiClient) (rebindOk : Bool)
    (h : c.call_counter < max_calls_per_key) : rotate_if_needed c rebindOk = c := by
  unfold rotate_if_needed
  rw [if_neg (by omega)]

/-- With blank text the call returns the empty response without issuing a
request, whatever the model binding looks like after the rotation check. -/
lemma extract_blank_eq (c : GeminiClient) (text : String) (rebindOk : Bool)
    (outcome : ApiOutcome) (h : py_strip text = "") :
    extract_paper_info c text rebindOk outcome
      = (rotate_if_needed c rebindOk, create_empty_response, 0) := by
  by_cases hm : (rotate_if_needed c rebindOk).model.isNone <;>
    simp [extract_paper_info, hm, h]

/-- A successful call below the budget on non-blank text just increments
the counter and parses the body. -/
lemma extract_success_eq (c : GeminiClient) (text body : String) (rebindOk : Bool)
    (k : Nat) (hc : c.call_counter < max_calls_per_key) (hm : c.model = some k)
    (ht : py_strip text ≠ "") :
    extract_paper_info c text rebindOk (ApiOutcome.success body)
      = ({ c with call_counter := c.call_counter + 1 }, parse_gemini_response body, 1) := by
  simp [extract_paper_info, rotate_if_needed_lt c rebindOk hc, hm, ht]

/-- C6: for every prior rotation state, `reset_key_rotation` restores
index 0 and counter 0 and re-binds the model to the first credential, so
the next unit's budget starts fresh regardless of prior progress. -/
theorem reset_key_rotation_restores_fresh_state :
    ∀ (c : GeminiClient) (ok : Bool),
      (reset_key_rotation c ok).current_key_index = 0 ∧
      (reset_key_rotation c ok).call_counter = 0 ∧
      (reset_key_rotation c ok).api_keys = c.api_keys ∧
      (c.api_keys ≠ [] → ok = true → (reset_key_rotation c ok).model = some 0) := by
  intro c ok
  refine ⟨rfl, rfl, rfl, fun h hok => ?_⟩
  subst hok
  cases hk : c.api_keys with
  | nil => exact absurd hk h
  | cons a as => simp [reset_key_rotation, initialize_model, hk]

/-- Witness for C6 at a concrete dirty state. -/
theorem reset_key_rotation_restores_fresh_state_w :
    (reset_key_rotation client_dirty true).current_key_index = 0 ∧
    (reset_key_rotation client_dirty true).call_counter = 0 ∧
    (reset_key_rotation client_dirty true).model = some 0 := by
  have h := reset_key_rotation_restores_fresh_state client_dirty true
  exact ⟨h.1, h.2.1, h.2.2.2 (by decide) rfl⟩

/-- C7: empty or whitespace-only input text yields the empty-sentinel
record, issues no request, and never increments the rotation counter. -/
theorem extract_blank_text_no_request :
    ∀ (c : GeminiClient) (text : String) (rebindOk : Bool) (outcome : ApiOutcome),
      py_strip text = "" →
      (extract_paper_info c text rebindOk outcome).2.1 = create_empty_response ∧
      (extract_paper_info c text rebindOk outcome).2.2 = 0 ∧
      (extract_paper_info c text rebindOk outcome).1.call_counter ≤ c.call_counter := by
  intro c text rb oc h
  rw [extract_blank_eq c text rb oc h]
  refine ⟨rfl, rfl, ?_⟩
  unfold rotate_if_needed
  split <;> simp

/-- Witness for C7 at whitespace-only text. -/
theorem extract_blank_text_no_request_w :
    (extract_paper_info client_two "  " true ApiOutcome.apiError).2.1
        = create_empty_response ∧
    (extract_paper_info client_two "  " true ApiOutcome.apiError).2.2 = 0 ∧
    (extract_paper_info client_two "  " true ApiOutcome.apiError).1.call_counter
        ≤ client_two.call_counter :=
  extract_blank_text_no_request client_two "  " true ApiOutcome.apiError (by decide)

/-- C10: the rotation check runs before the empty-text check — a call at
the budget with blank text still rotates (index advances modulo the pool,
counter resets, model re-bound to the new credential) even though no
request is issued and the empty-sentinel record is returned. -/
theorem extract_rotates_even_on_blank_text :
    ∀ (c : GeminiClient) (text : String) (rebindOk : Bool) (outcome : ApiOutcome),
      max_calls_per_key ≤ c.call_counter → py_strip text = "" → c.api_keys ≠ [] →
      (extract_paper_info c text rebindOk outcome).1.current_key_index
          = (c.current_key_index + 1) % c.api_keys.length ∧
      (extract_paper_info c text rebindOk outcome).1.call_counter = 0 ∧
      (extract_paper_info c text rebindOk outcome).1.model
          = (if rebindOk then some ((c.current_key_index + 1) % c.api_keys.length)
             else none) ∧
      (extract_paper_info c text rebindOk outcome).2.1 = create_empty_response ∧
      (extract_paper_info c text rebindOk outcome).2.2 = 0 := by
  intro c text rb oc hc ht hk
  rw [extract_blank_eq c text rb oc ht]
  unfold rotate_if_needed
  rw [if_pos hc]
  cases hks : c.api_keys with
  | nil => exact absurd hks hk
  | cons a as => simp [initialize_model, hks]

/-- Witness for C10: a client at the budget, blank text, successful
rebinding. -/
theorem extract_rotates_even_on_blank_text_w :
    (extract_paper_info { client_two with call_counter := 3 } "" true
        ApiOutcome.apiError).1.current_key_index = 1 ∧
    (extract_paper_info { client_two with call_counter := 3 } "" true
        ApiOutcome.apiError).1.call_counter = 0 ∧
    (extract_paper_info { client_two with call_counter := 3 } "" true
        ApiOutcome.apiError).2.2 = 0 := by
  have h := extract_rotates_even_on_blank_text { client_two with call_counter := 3 }
    "" true ApiOutcome.apiError (by decide) (by decide) (by decide)
  exact ⟨h.1.trans (by decide), h.2.1, h.2.2.2.2⟩

/-- C9: a file whose first-page text extraction returns the empty string
is handled by the orchestrator alone — the sentinel record is built
locally, the client is never invoked (zero requests), and the client's
rotation state is completely unchanged. -/
theorem empty_text_skips_client :
    ∀ (c : GeminiClient) (name : String) (content : PdfDoc) (rebindOk : Bool)
      (outcome : ApiOutcome) (item : Nat),
      extract_first_page_text content = "" →
      process_file c ⟨name, FileEvent.ok content rebindOk outcome⟩ item
        = (c, record_row_data item name create_empty_response, 0) := by
  intro c name content rb oc item h
  simp [process_file, h]

/-- Witness for C9 at an unreadable PDF. -/
theorem empty_text_skips_client_w :
    process_file client_two ⟨"a.pdf", FileEvent.ok PdfDoc.unreadable true
        (ApiOutcome.success "\x7b\x7d")⟩ 1
      = (client_two, record_row_data 1 "a.pdf" create_empty_response, 0) :=
  empty_text_skips_client client_two "a.pdf" PdfDoc.unreadable true
    (ApiOutcome.success "\x7b\x7d") 1 rfl

/-- C1: rotation is checked before the request — at or above the budget
the index advances modulo the pool and the counter resets, below it
nothing changes; exactly the successful unblocked requests increment the
counter; 7 consecutive successful calls over a pool of 2 use indices
[0,0,0,1,1,1,0]; and a unit with fewer calls than the budget never
rotates. -/
theorem extract_rotation_discipline :
    (∀ (c : GeminiClient) (rebindOk : Bool), max_calls_per_key ≤ c.call_counter →
      (rotate_if_needed c rebindOk).current_key_index
          = (c.current_key_index + 1) % c.api_keys.length ∧
      (rotate_if_needed c rebindOk).call_counter = 0 ∧
      (rotate_if_needed c rebindOk).api_keys = c.api_keys) ∧
    (∀ (c : GeminiClient) (rebindOk : Bool), c.call_counter < max_calls_per_key →
      rotate_if_needed c rebindOk = c) ∧
    (∀ (c : GeminiClient) (text : String) (rebindOk : Bool) (outcome : ApiOutcome),
      (extract_paper_info c text rebindOk outcome).1.call_counter =
        (if ((rotate_if_needed c rebindOk).model.isSome && (py_strip text != "")
              && outcome.isSuccess) = true
         then (rotate_if_needed c rebindOk).call_counter + 1
         else (rotate_if_needed c rebindOk).call_counter)) ∧
    run_success_calls client_two 7 = [0, 0, 0, 1, 1, 1, 0] ∧
    (∀ (c : GeminiClient) (n : Nat), c.model.isSome = true →
      c.call_counter + n ≤ max_calls_per_key →
      run_success_calls c n = List.replicate n c.current_key_index) := by
  refine ⟨?_, ?_, ?_, by decide, ?_⟩
  · intro c rb h
    unfold rotate_if_needed
    rw [if_pos h]
    exact ⟨rfl, rfl, rfl⟩
  · exact rotate_if_needed_lt
  · intro c text rb oc
    cases hm : (rotate_if_needed c rb).model <;>
      by_cases ht : py_strip text = "" <;> cases oc <;>
        simp [extract_paper_info, hm, ht, ApiOutcome.isSuccess]
  · intro c n
    induction n generalizing c with
    | zero => intro _ _; rfl
    | succ n ih =>
      intro hm hcc
      obtain ⟨k, hk⟩ := Option.isSome_iff_exists.mp hm
      have hstep := extract_success_eq c "x" "\x7b\x7d" true k (by omega) hk (by decide)
      have hrec := ih { c with call_counter := c.call_counter + 1 }
        (by simpa using hm)
        (by show c.call_counter + 1 + n ≤ max_calls_per_key; omega)
      simp only [run_success_calls, hstep, List.replicate_succ]
      rw [hrec]

/-- Witness for C1: concrete rotation step, no-op step, and a short
non-rotating run. -/
theorem extract_rotation_discipline_w :
    (rotate_if_needed { client_two with call_counter := 3 } true).current_key_index = 1 ∧
    rotate_if_needed client_two true = client_two ∧
    run_success_calls client_two 2 = List.replicate 2 0 := by
  have h := extract_rotation_discipline
  exact ⟨(h.1 { client_two with call_counter := 3 } true (by decide)).1.trans (by decide),
    h.2.1 client_two true (by decide), h.2.2.2.2 client_two 2 (by decide) (by decide)⟩

/-- C2 counterexample: a key present with JSON value `null` is coerced by
`str()` to the string "None" — it does not default to "not found" as the
claim states. -/
theorem parse_null_value_becomes_None :
    (parse_gemini_response "\x7b\"author\": null\x7d").author = "None" ∧
    "None" ≠ "not found" := ⟨by decide, by decide⟩

/-- C2 amended: each field is the `str()`-coerced, stripped value; a
missing key defaults to "not found"; numbers are coerced to their decimal
string; unparseable input yields the all-"not found" record; but a key
whose value is JSON `null` becomes the string "None". -/
theorem parse_response_normalization :
    (∀ s, json_parse s = none → parse_gemini_response s = create_empty_response) ∧
    parse_gemini_response "not a json" = create_empty_response ∧
    parse_gemini_response "\x7b\"author\": \"A. Smith\", \"year\": 2020\x7d"
        = { author := "A. Smith", year := "2020", title := "not found",
            abstract := "not found" } ∧
    (∀ fields, fields.reverse.lookup "author" = none →
      (parse_fields fields).author = "not found") ∧
    (∀ fields, fields.reverse.lookup "author" = some JsonVal.null →
      (parse_fields fields).author = "None") ∧
    (∀ fields s, fields.reverse.lookup "author" = some (JsonVal.str s) →
      (parse_fields fields).author = py_strip s) ∧
    (parse_gemini_response "\x7b\"title\": \"  Spaced  \"\x7d").title = "Spaced" := by
  refine ⟨?_, by decide, by decide, ?_, ?_, ?_, by decide⟩
  · intro s h
    simp [parse_gemini_response, h]
  · intro fields h
    simp only [parse_fields, dict_get, h]
    decide
  · intro fields h
    simp only [parse_fields, dict_get, h]
    decide
  · intro fields s h
    simp only [parse_fields, dict_get, h]
    rfl

/-- Witness for the amended C2 at concrete inputs. -/
theorem parse_response_normalization_w :
    parse_gemini_response "oops" = create_empty_response ∧
    (parse_fields [("author", JsonVal.null)]).author = "None" ∧
    (parse_fields [("author", JsonVal.str " B. Jones ")]).author = py_strip " B. Jones " := by
  have h := parse_response_normalization
  exact ⟨h.1 "oops" rfl, h.2.2.2.2.1 [("author", JsonVal.null)] rfl,
    h.2.2.2.2.2.1 [("author", JsonVal.str " B. Jones ")] " B. Jones " rfl⟩

/-- C3 counterexample: a valid JSON object surrounded by prose is not
recovered — the parser returns the all-"not found" record even though the
embedded span on its own parses fine. -/
theorem parse_embedded_json_ignored :
    parse_gemini_response
        "Here is the JSON: \x7b\"author\": \"A. Smith\"\x7d, hope it helps"
      = create_empty_response ∧
    (json_parse "\x7b\"author\": \"A. Smith\"\x7d").isSome = true := ⟨by decide, by decide⟩

/-- C3 amended: the parser attempts a direct `json.loads` only — there is
no balanced-object-span fallback, so any response beginning with prose
yields the all-"not found" record no matter what JSON follows. -/
theorem parse_no_prose_fallback :
    ∀ rest : String,
      parse_gemini_response ("Here is the JSON: " ++ rest) = create_empty_response := by
  intro rest
  have hdata : ("Here is the JSON: " ++ rest).data
      = 'H' :: ("ere is the JSON: ".data ++ rest.data) := by
    rw [String.data_append]
    rfl
  have h1 : ∀ (f : Nat) (cs : List Char), parse_value (f + 1) ('H' :: cs) = none :=
    fun _ _ => rfl
  have hsw : skip_ws ('H' :: ("ere is the JSON: ".data ++ rest.data))
      = 'H' :: ("ere is the JSON: ".data ++ rest.data) := rfl
  have hjp : json_parse ("Here is the JSON: " ++ rest) = none := by
    unfold json_parse
    rw [hdata, hsw, h1]
  simp [parse_gemini_response, hjp]

/-! ## Claims about unit discovery -/

/-- C5 counterexample: the directory `part_2_extra` does not match the
pattern `part_<integer>`, yet `get_subfolders` selects it (the code only
checks the prefix and the second `'_'`-separated token). -/
theorem get_subfolders_accepts_nonpattern_name :
    get_subfolders [⟨"part_2_extra", true⟩] = ["part_2_extra"] ∧
    spec_part_integer_name "part_2_extra" = false := ⟨by decide, by decide⟩

/-- C5 amended: discovery selects exactly the immediate subdirectories
whose names start with `part_` and whose second `'_'`-separated token
parses as an integer (strictly more than the names matching
`part_<integer>`), ignores everything else silently, and orders the
result by the parsed integer (name-lexicographic on ties) — so
`part_2, part_10, part_1` are processed as `part_1, part_2, part_10`. -/
theorem get_subfolders_selection_and_order :
    get_subfolders [⟨"part_2", true⟩, ⟨"part_10", true⟩, ⟨"part_1", true⟩]
        = ["part_1", "part_2", "part_10"] ∧
    (∀ (entries : List DirEntry) (n : Int) (name : String),
      (n, name) ∈ subfolder_pairs entries ↔
        ∃ e, e ∈ entries ∧ e.isDir = true ∧ e.name = name ∧
          py_startswith e.name "part_" = true ∧
          ∃ tok, (py_split e.name '_')[1]? = some tok ∧ py_int tok = some n) ∧
    (∀ (entries : List DirEntry) (name : String),
      name ∈ get_subfolders entries ↔ ∃ n : Int, (n, name) ∈ subfolder_pairs entries) ∧
    (∀ entries : List DirEntry, List.Sorted (· ≤ ·)
      ((List.insertionSort pair_le (subfolder_pairs entries)).map Prod.fst)) := by
  refine ⟨by decide, ?_, ?_, ?_⟩
  · intro entries n name
    unfold subfolder_pairs
    rw [List.mem_filterMap]
    constructor
    · rintro ⟨e, he, hf⟩
      by_cases hA : (e.isDir && py_startswith e.name "part_") = true
      · rw [if_pos hA] at hf
        rw [Bool.and_eq_true] at hA
        obtain ⟨hdir, hpre⟩ := hA
        cases htok : (py_split e.name '_')[1]? with
        | none => simp [htok] at hf
        | some tok =>
          cases hint : py_int tok with
          | none => simp [htok, hint] at hf
          | some m =>
            simp only [htok, hint, Option.some.injEq, Prod.mk.injEq] at hf
            obtain ⟨hf1, hf2⟩ := hf
            exact ⟨e, he, hdir, hf2, hpre, tok, htok, hf1 ▸ hint⟩
      · rw [if_neg hA] at hf
        cases hf
    · rintro ⟨e, he, hdir, hname, hpre, tok, htok, hint⟩
      refine ⟨e, he, ?_⟩
      rw [if_pos (by rw [Bool.and_eq_true]; exact ⟨hdir, hpre⟩)]
      subst hname
      simp [htok, hint]
  · intro entries name
    unfold get_subfolders
    rw [List.mem_map]
    constructor
    · rintro ⟨⟨p1, p2⟩, hp, hpn⟩
      cases hpn
      exact ⟨p1, by rwa [List.mem_insertionSort pair_le] at hp⟩
    · rintro ⟨n, hn⟩
      exact ⟨(n, name), (List.mem_insertionSort pair_le).mpr hn, rfl⟩
  · intro entries
    have hs := List.sorted_insertionSort pair_le (subfolder_pairs entries)
    exact List.Pairwise.map Prod.fst
      (fun a b hab => by
        rcases hab with h | ⟨h, _⟩
        · exact le_of_lt h
        · exact le_of_eq h) hs

/-- Witness for the amended C5: the characterization applied to one
concrete matching entry. -/
theorem get_subfolders_selection_and_order_w :
    "part_5" ∈ get_subfolders [⟨"part_5", true⟩] := by
  have h := (get_subfolders_selection_and_order.2.2.1 [⟨"part_5", true⟩] "part_5").mpr
  refine h ⟨5, (get_subfolders_selection_and_order.2.1 [⟨"part_5", true⟩] 5 "part_5").mpr
    ⟨⟨"part_5", true⟩, List.mem_singleton.mpr rfl, rfl, rfl, by decide, "5", by decide, by decide⟩⟩

/-! ## Claims about the ledger -/

/-- C8 counterexample: when the provider returns a whitespace-only value
(response body with author `"  "`), the stripped field is the empty
string, and the row appended to the ledger carries that empty string —
the claimed "never the empty string" invariant fails. -/
theorem ledger_row_can_hold_empty_string :
    add_row []
        (record_row_data 1 "a.pdf" (parse_gemini_response "\x7b\"author\": \"  \"\x7d"))
      = [[("item", "1"), ("file_name", "a.pdf"), ("author", ""),
          ("year", "not found"), ("title", "not found"), ("abstract", "not found")]] ∧
    "" ≠ "not found" := ⟨by decide, by decide⟩

/-- C8 amended: every appended row carries all six declared columns
(never absent), `add_row` fills a column missing from the incoming
mapping with the sentinel "not found", and rows built from the error or
empty-text path are fully sentinel; but a metadata field holding genuine
extracted content can be any stripped string, including the empty
string. -/
theorem add_row_fills_all_columns :
    (∀ (rd : String → Option String) (col : String), col ∈ excel_columns →
      (validated_row rd).lookup col = some ((rd col).getD "not found")) ∧
    (∀ (item : Nat) (name col : String), col ∈ ["author", "year", "title", "abstract"] →
      (validated_row (record_row_data item name create_empty_response)).lookup col
        = some "not found") ∧
    (∀ (rows : List Row) (rd : String → Option String),
      add_row rows rd = rows ++ [validated_row rd]) := by
  refine ⟨?_, ?_, fun _ _ => rfl⟩
  · intro rd col hcol
    fin_cases hcol <;> rfl
  · intro item name col hcol
    fin_cases hcol <;> rfl

/-- Witness for the amended C8: a mapping missing every column is
sentinel-filled. -/
theorem add_row_fills_all_columns_w :
    (validated_row (fun _ => none)).lookup "author" = some "not found" :=
  (add_row_fills_all_columns.1 (fun _ => none) "author" (by decide)).trans rfl

/-! ## Claims about the per-unit loop -/

/-- `process_subfolder` appends exactly the rows of `files_rows` after
the rows already in the ledger. -/
lemma process_subfolder_rows_eq :
    ∀ (files : List PdfFile) (c : GeminiClient) (rows : List Row) (item : Nat),
      (process_subfolder c files rows item).2.1 = rows ++ files_rows c files item := by
  intro files
  induction files with
  | nil => intro c rows item; simp [process_subfolder, files_rows]
  | cons f rest ih =>
    intro c rows item
    simp only [process_subfolder, files_rows, add_row]
    rw [ih]
    simp

/-- The item counter advances by exactly the number of files. -/
lemma process_subfolder_item_eq :
    ∀ (files : List PdfFile) (c : GeminiClient) (rows : List Row) (item : Nat),
      (process_subfolder c files rows item).2.2 = item + files.length := by
  intro files
  induction files with
  | nil => intro c rows item; simp [process_subfolder]
  | cons f rest ih =>
    intro c rows item
    simp only [process_subfolder]
    rw [ih]
    simp only [List.length_cons]
    omega

/-- One contributed row per file. -/
lemma files_rows_length :
    ∀ (files : List PdfFile) (c : GeminiClient) (item : Nat),
      (files_rows c files item).length = files.length := by
  intro files
  induction files with
  | nil => intro c item; rfl
  | cons f rest ih => intro c item; simp only [files_rows, List.length_cons, ih]

/-- The row built for a file records that file's name. -/
lemma process_file_lookup_file_name (c : GeminiClient) (f : PdfFile) (item : Nat) :
    (validated_row (process_file c f item).2.1).lookup "file_name" = some f.name := by
  obtain ⟨name, ev⟩ := f
  cases ev with
  | raises => rfl
  | ok content rb oc =>
    by_cases h : extract_first_page_text content = ""
    · simp only [process_file]
      rw [if_pos h]
      rfl
    · simp only [process_file]
      rw [if_neg h]
      rfl

/-- The row built for a file records the item number it was given. -/
lemma process_file_lookup_item (c : GeminiClient) (f : PdfFile) (item : Nat) :
    (validated_row (process_file c f item).2.1).lookup "item" = some (toString item) := by
  obtain ⟨name, ev⟩ := f
  cases ev with
  | raises => rfl
  | ok content rb oc =>
    by_cases h : extract_first_page_text content = ""
    · simp only [process_file]
      rw [if_pos h]
      rfl
    · simp only [process_file]
      rw [if_neg h]
      rfl

/-- The contributed rows carry the file names in order. -/
lemma files_rows_names :
    ∀ (files : List PdfFile) (c : GeminiClient) (item : Nat),
      (files_rows c files item).map (fun r => r.lookup "file_name")
        = files.map (fun f => some f.name) := by
  intro files
  induction files with
  | nil => intro c item; rfl
  | cons f rest ih =>
    intro c item
    simp only [files_rows, List.map_cons]
    rw [process_file_lookup_file_name, ih]

/-- The contributed rows carry consecutive item numbers. -/
lemma files_rows_items :
    ∀ (files : List PdfFile) (c : GeminiClient) (item : Nat),
      (files_rows c files item).map (fun r => r.lookup "item")
        = (List.range files.length).map (fun i => some (toString (item + i))) := by
  intro files
  induction files with
  | nil => intro c item; rfl
  | cons f rest ih =>
    intro c item
    simp only [files_rows, List.map_cons, List.length_cons]
    rw [process_file_lookup_item, ih, List.range_succ_eq_map, List.map_cons, List.map_map]
    refine congrArg₂ _ (by rw [Nat.add_zero]) ?_
    refine List.map_congr_left fun i _ => ?_
    have : item + 1 + i = item + (i + 1) := by omega
    simp [Function.comp, this]

/-- C4: each input PDF file yields exactly one ledger row, in order —
the row count grows by exactly the number of files, the file-name column
lists the files in order, the item column is consecutive, the counter
advances by the file count, and a file whose processing raises still
produces a full sentinel row at its position while the remaining files
are processed. -/
theorem process_subfolder_one_row_per_file :
    (∀ (c : GeminiClient) (files : List PdfFile) (rows : List Row) (item : Nat),
      (process_subfolder c files rows item).2.1.length = rows.length + files.length) ∧
    (∀ (c : GeminiClient) (files : List PdfFile) (rows : List Row) (item : Nat),
      (process_subfolder c files rows item).2.2 = item + files.length) ∧
    (∀ (c : GeminiClient) (files : List PdfFile) (rows : List Row) (item : Nat),
      (process_subfolder c files rows item).2.1.map (fun r => r.lookup "file_name")
        = rows.map (fun r => r.lookup "file_name")
            ++ files.map (fun f => some f.name)) ∧
    (∀ (c : GeminiClient) (files : List PdfFile) (rows : List Row) (item : Nat),
      (process_subfolder c files rows item).2.1.map (fun r => r.lookup "item")
        = rows.map (fun r => r.lookup "item")
            ++ (List.range files.length).map (fun i => some (toString (item + i)))) ∧
    (∀ (c : GeminiClient) (f : PdfFile) (rest : List PdfFile) (rows : List Row)
        (item : Nat), f.event = FileEvent.raises →
      ((process_subfolder c (f :: rest) rows item).2.1.drop rows.length).head?
        = some (validated_row (record_row_data item f.name create_empty_response))) := by
  refine ⟨?_, fun c files rows item => process_subfolder_item_eq files c rows item,
    ?_, ?_, ?_⟩
  · intro c files rows item
    rw [process_subfolder_rows_eq, List.length_append, files_rows_length]
  · intro c files rows item
    rw [process_subfolder_rows_eq, List.map_append, files_rows_names]
  · intro c files rows item
    rw [process_subfolder_rows_eq, List.map_append, files_rows_items]
  · intro c f rest rows item hev
    rw [process_subfolder_rows_eq, List.drop_left]
    obtain ⟨name, ev⟩ := f
    cases hev
    rfl

/-- Witness for C4: a two-file unit (one raising, one unreadable) yields
two rows in order with the raising file's row fully sentinel. -/
theorem process_subfolder_one_row_per_file_w :
    (process_subfolder client_two [⟨"x.pdf", FileEvent.raises⟩,
        ⟨"y.pdf", FileEvent.ok PdfDoc.unreadable true ApiOutcome.apiError⟩]
        [] 4).2.1.length = 0 + 2 ∧
    ((process_subfolder client_two [⟨"x.pdf", FileEvent.raises⟩,
        ⟨"y.pdf", FileEvent.ok PdfDoc.unreadable true ApiOutcome.apiError⟩]
        [] 4).2.1.drop 0).head?
      = some (validated_row (record_row_data 4 "x.pdf" create_empty_response)) := by
  have h := process_subfolder_one_row_per_file
  exact ⟨h.1 client_two _ [] 4,
    h.2.2.2.2 client_two ⟨"x.pdf", FileEvent.raises⟩ _ [] 4 rfl⟩
